import Mathlib

/-!
Verification of the bofire-candidates-api proposal lifecycle.

The development shallowly embeds the two source files of the repository:

* `src/app/routers/proposals.py` — the Proposal Service: FastAPI route
  handlers over a TinyDB document store (create, list, get, claim,
  get_candidates, get_state, mark_processed, mark_failed).
* `src/worker/worker.py` — the Worker Execution Engine: the client of the
  service, the per-round control loop, and the isolated execution unit
  running the candidate generator in a separate process.

The TinyDB store is modelled as an association list from document id to
record; route handlers become pure functions from (arguments, store) to
(result, store), with `Except HTTPExceptionM` standing for FastAPI's
`HTTPException` raising. Timestamps are abstract `Nat` values supplied by
the caller (the code reads `datetime.datetime.now()`); candidate rows and
strategy configurations are opaque payloads.
-/

namespace BofireCandidates

/-- The four-element state enumeration `StateEnum` exchanged at every
boundary (`CREATED, CLAIMED, FINISHED, FAILED`). -/
inductive StateEnum where
  | CREATED
  | CLAIMED
  | FINISHED
  | FAILED
deriving DecidableEq, Repr

/-- Candidate sets are exchanged as a row-oriented payload; only the row
structure matters to the core, so a row is modelled as an opaque `Nat`
payload. Corresponds to `bofire.data_models.dataframes.api.Candidates`. -/
structure Candidates where
  rows : List Nat
deriving DecidableEq, Repr

/-- Modelled from the spec: the `Proposal` record of
`bofire_candidates_api.models.proposals` (the model module itself is not
under `src/`; §3 of the design gives its fields and creation defaults).
`strategy_data` and `experiments` are opaque payloads; timestamps are
abstract `Nat` instants. -/
structure Proposal where
  id : Option Nat
  strategy_data : Nat
  experiments : Option Nat
  n_candidates : Nat
  state : StateEnum
  candidates : Option Candidates
  error_message : Option String
  created_at : Nat
  last_updated_at : Nat
deriving DecidableEq, Repr

/-- Modelled from the spec: a `ProposalRequest` carries the immutable
inputs of a proposal (§3); the service copies them into a fresh record. -/
structure ProposalRequest where
  strategy_data : Nat
  experiments : Option Nat
  n_candidates : Nat
deriving DecidableEq, Repr

/-- FastAPI `HTTPException`: a status code and a detail string. -/
structure HTTPExceptionM where
  status_code : Nat
  detail : String
deriving DecidableEq, Repr

/-- The TinyDB store: a sequence of (doc_id, record) entries, in insertion
order. TinyDB's `db.search`/`db.all` scan in this order; `doc_id`s are
assigned consecutively from 1 on insert and the core never deletes. -/
abbrev DB := List (Nat × Proposal)

/-- TinyDB `db.get(doc_id=i)`: the record stored under document id `i`. -/
def dbGet (db : DB) (i : Nat) : Option Proposal :=
  (db.find? (fun e => e.1 == i)).map (fun e => e.2)

/-- TinyDB `db.update(fields_or_record, doc_ids=[i])`: rewrite the record
stored under document id `i` by `f` (a partial-field update or a full
record replacement). -/
def dbUpdate (db : DB) (i : Nat) (f : Proposal → Proposal) : DB :=
  db.map (fun e => if e.1 = i then (e.1, f e.2) else e)

/-- TinyDB `db.insert(record)`: append under the next document id. -/
def dbInsert (db : DB) (p : Proposal) : Nat × DB :=
  (db.length + 1, db ++ [(db.length + 1, p)])

/-- The predicate of `Query().state == StateEnum.CREATED`. -/
def isCreated (p : Proposal) : Bool :=
  match p.state with
  | .CREATED => true
  | _ => false

/-- TinyDB `db.search(Query().state == StateEnum.CREATED)`: all records in
state `CREATED`, in store order. -/
def dbSearchCreated (db : DB) : List Proposal :=
  (db.filter (fun e => isCreated e.2)).map (fun e => e.2)

/-- Handler helper `get_proposal_from_db`: point lookup raising 404 when absent. -/
def get_proposal_from_db (db : DB) (proposal_id : Nat) :
    Except HTTPExceptionM Proposal :=
  match dbGet db proposal_id with
  | none => .error ⟨404, "Proposal not found"⟩
  | some p => .ok p

/-- Modelled from the spec: `Proposal(**proposal_request.model_dump())`
builds the record with `state = CREATED`, no candidates, no error message,
and current timestamps (§3 creation defaults; the pydantic model with its
defaults is not under `src/`). -/
def newProposal (req : ProposalRequest) (now : Nat) : Proposal :=
  { id := none
    strategy_data := req.strategy_data
    experiments := req.experiments
    n_candidates := req.n_candidates
    state := .CREATED
    candidates := none
    error_message := none
    created_at := now
    last_updated_at := now }

/-- Route `create_proposal` (POST /proposals): insert the fresh record, copy the
assigned doc id into its `id` field, and return the re-read record. -/
def create_proposal (proposal_request : ProposalRequest) (now : Nat)
    (db : DB) : Option Proposal × DB :=
  let proposal := newProposal proposal_request now
  let inserted := dbInsert db proposal
  let db2 := dbUpdate inserted.2 inserted.1 (fun q => { q with id := some inserted.1 })
  (dbGet db2 inserted.1, db2)

/-- Route `get_proposals` (GET /proposals): all records in store order. -/
def get_proposals (db : DB) : List Proposal :=
  db.map (fun e => e.2)

/-- Route `claim_proposal` (GET /proposals/claim): search for `CREATED` records,
404 if none, else transition the first to `CLAIMED` with a refreshed
`last_updated_at` and return the re-read record. -/
def claim_proposal (now : Nat) (db : DB) :
    Except HTTPExceptionM Proposal × DB :=
  match dbSearchCreated db with
  | [] => (.error ⟨404, "No proposals to claim"⟩, db)
  | proposal :: _ =>
    let pid := proposal.id.getD 0
    let db2 := dbUpdate db pid
      (fun q => { q with state := .CLAIMED, last_updated_at := now })
    match dbGet db2 pid with
    | some updated => (.ok updated, db2)
    | none => (.error ⟨404, "Proposal not found"⟩, db2)

/-- Route `get_proposal` (GET /proposals/id). -/
def get_proposal (proposal_id : Nat) (db : DB) : Except HTTPExceptionM Proposal :=
  get_proposal_from_db db proposal_id

/-- Route `get_candidates` (GET /proposals/id/candidates): 404 when the record
has no stored candidates. -/
def get_candidates (proposal_id : Nat) (db : DB) :
    Except HTTPExceptionM Candidates :=
  match get_proposal_from_db db proposal_id with
  | .error e => .error e
  | .ok proposal =>
    match proposal.candidates with
    | none => .error ⟨404, "Candidates not found"⟩
    | some c => .ok c

/-- Route `get_state` (GET /proposals/id/state). -/
def get_state (proposal_id : Nat) (db : DB) : Except HTTPExceptionM StateEnum :=
  match get_proposal_from_db db proposal_id with
  | .error e => .error e
  | .ok proposal => .ok proposal.state

/-- Route `mark_processed` (POST /proposals/id/mark_processed): 400 on a row
count differing from `n_candidates`; otherwise store the candidates, set
`state = FINISHED`, refresh `last_updated_at`, write the whole record
back, and return the new state. -/
def mark_processed (proposal_id : Nat) (candidates : Candidates) (now : Nat)
    (db : DB) : Except HTTPExceptionM StateEnum × DB :=
  match get_proposal_from_db db proposal_id with
  | .error e => (.error e, db)
  | .ok proposal =>
    if candidates.rows.length ≠ proposal.n_candidates then
      (.error ⟨400, "Expected " ++ toString proposal.n_candidates ++
        " candidates, got " ++ toString candidates.rows.length⟩, db)
    else
      let updated := { proposal with
        candidates := some candidates
        last_updated_at := now
        state := .FINISHED }
      (.ok updated.state, dbUpdate db proposal_id (fun _ => updated))

/-- Route `mark_failed` (POST /proposals/id/mark_failed): set `state = FAILED`,
store the `msg` field of the request body as `error_message`, refresh
`last_updated_at`, write the whole record back, and return the new state.
No guard on the prior state; `candidates` is left as it was. -/
def mark_failed (proposal_id : Nat) (msg : String) (now : Nat)
    (db : DB) : Except HTTPExceptionM StateEnum × DB :=
  match get_proposal_from_db db proposal_id with
  | .error e => (.error e, db)
  | .ok proposal =>
    let updated := { proposal with
      last_updated_at := now
      state := .FAILED
      error_message := some msg }
    (.ok updated.state, dbUpdate db proposal_id (fun _ => updated))

/-! ## The claim race (src/app/routers/proposals.py, claim_proposal)

Each HTTP request runs `claim_proposal` on its own `TinyDB` handle over the
shared file, with no lock between the `db.search` read and the `db.update`
write.  To analyse concurrent requests, the handler is split into its read
phase (`claim_select`) and its write phase (`claim_commit`);
`claim_proposal_eq_select_commit` below shows the split is faithful. -/

/-- The read phase of `claim_proposal`: the `db.search` and the choice of
`query_list[0]`. -/
def claim_select (db : DB) : Option Proposal :=
  (dbSearchCreated db).head?

/-- The write phase of `claim_proposal`: the `db.update` to `CLAIMED` plus
the re-read of the record, applied to whatever the store holds when the
write runs. -/
def claim_commit (now : Nat) (db : DB) (proposal : Proposal) :
    Except HTTPExceptionM Proposal × DB :=
  let pid := proposal.id.getD 0
  let db2 := dbUpdate db pid
    (fun q => { q with state := .CLAIMED, last_updated_at := now })
  match dbGet db2 pid with
  | some updated => (.ok updated, db2)
  | none => (.error ⟨404, "Proposal not found"⟩, db2)

/-- Two concurrent `claim_proposal` requests under the schedule
read₁, read₂, write₁, write₂: both read phases observe the same store
snapshot, then the write phases run in turn. Returns both HTTP results and
the final store. -/
def claim_two_interleaved (now1 now2 : Nat) (db : DB) :
    (Except HTTPExceptionM Proposal × Except HTTPExceptionM Proposal) × DB :=
  match claim_select db, claim_select db with
  | none, none => ((.error ⟨404, "No proposals to claim"⟩,
                    .error ⟨404, "No proposals to claim"⟩), db)
  | none, some p2 =>
    let r2 := claim_commit now2 db p2
    ((.error ⟨404, "No proposals to claim"⟩, r2.1), r2.2)
  | some p1, none =>
    let r1 := claim_commit now1 db p1
    ((r1.1, .error ⟨404, "No proposals to claim"⟩), r1.2)
  | some p1, some p2 =>
    let r1 := claim_commit now1 db p1
    let r2 := claim_commit now2 r1.2 p2
    ((r1.1, r2.1), r2.2)

/-! ## Worker-side transport client (src/worker/worker.py, class Client) -/

/-- Method `Client.claim_proposal`: GET /proposals/claim; a 404 response becomes
`none` ("no work"); a success parses the proposal; any other outcome (a
transport failure, or an unparseable non-404 error body) raises, modelled
as `.error`. -/
def client_claim_proposal (now : Nat) (db : DB) :
    Except String (Option Proposal) × DB :=
  match claim_proposal now db with
  | (.ok p, db2) => (.ok (some p), db2)
  | (.error e, db2) =>
    if e.status_code = 404 then (.ok none, db2) else (.error e.detail, db2)

/-! ## Reachability: sequences of Proposal Service operations -/

/-- One Proposal Service mutation, with the arguments a caller can supply
(the `now` argument stands for the wall clock read inside the handler). -/
inductive Op where
  | createOp (req : ProposalRequest) (now : Nat)
  | claimOp (now : Nat)
  | markProcessedOp (i : Nat) (c : Candidates) (now : Nat)
  | markFailedOp (i : Nat) (msg : String) (now : Nat)
deriving DecidableEq, Repr

/-- The store after one operation (read-only operations do not change the
store and are omitted). -/
def applyOp (db : DB) : Op → DB
  | .createOp req now => (create_proposal req now db).2
  | .claimOp now => (claim_proposal now db).2
  | .markProcessedOp i c now => (mark_processed i c now db).2
  | .markFailedOp i msg now => (mark_failed i msg now db).2

/-- The store reached from the empty store by a sequence of operations. -/
def runOps (ops : List Op) : DB :=
  ops.foldl applyOp []

/-- The per-record facts that actually hold in every reachable store:
the `id` field mirrors the document id; a `CREATED` or `CLAIMED` record
carries neither candidates nor an error message; a `FINISHED` record
carries candidates whose row count matches `n_candidates`; a `FAILED`
record carries an error message. (Nothing forces the two optional fields
to be mutually exclusive: a terminal mark applied on top of the other
terminal state leaves the stale field in place.) -/
def RecordOK (i : Nat) (p : Proposal) : Prop :=
  p.id = some i ∧
  ((p.state = .CREATED ∨ p.state = .CLAIMED) →
    p.candidates = none ∧ p.error_message = none) ∧
  (p.state = .FINISHED →
    ∃ c, p.candidates = some c ∧ c.rows.length = p.n_candidates) ∧
  (p.state = .FAILED → ∃ m, p.error_message = some m)

/-- The store invariant: document ids are exactly 1..length in order (the
core never deletes, TinyDB assigns ids consecutively), and every record
satisfies `RecordOK`. -/
def DBInv (db : DB) : Prop :=
  db.map Prod.fst = List.range' 1 db.length ∧ ∀ e ∈ db, RecordOK e.1 e.2

/-! ## Worker Execution Engine (src/worker/worker.py, class Worker) -/

/-- The abstract interface of the candidate-generation pipeline run inside
the isolated unit: `strategies.map` on the strategy data, an optional
`strategy.tell` of the experiments, and `strategy.ask` for the candidates;
each step may raise, carrying the fault's textual description. -/
structure GenEnv (Strategy : Type) where
  mapStrategy : Nat → Except String Strategy
  tell : Strategy → Nat → Except String Strategy
  ask : Strategy → Nat → Except String Candidates

/-- The body of the `try` block of `Worker.process_proposal`: map the
strategy, tell it the experiments when present, ask for `n_candidates`. -/
def generate {Strategy : Type} (env : GenEnv Strategy) (p : Proposal) :
    Except String Candidates := do
  let s ← env.mapStrategy p.strategy_data
  let s2 ←
    match p.experiments with
    | some ex => env.tell s ex
    | none => pure s
  env.ask s2 p.n_candidates

/-- A message on the one-shot result channel (`mp.Pipe`): either the
computed candidate set, or `Exception(str(e))` for the caught fault. -/
inductive ChanMsg where
  | candidates (c : Candidates)
  | failure (text : String)
deriving DecidableEq, Repr

/-- Method `Worker.process_proposal`: run the generator under try/except, binding
`msg` to the result or to the stringified exception, and in the `finally`
block send `msg` — so exactly one message leaves the unit. Returns the
sequence of messages sent on the channel. -/
def process_proposal {Strategy : Type} (env : GenEnv Strategy)
    (proposal : Proposal) : List ChanMsg :=
  let msg :=
    match generate env proposal with
    | .ok c => ChanMsg.candidates c
    | .error e => ChanMsg.failure e
  [msg]

/-- An observable action of one `Worker.work_round`. -/
inductive Action where
  | claimCall
  | sleepIdle
  | spawn
  | poll
  | markProcessedCall (i : Nat) (c : Candidates)
  | markFailedCall (i : Nat) (msg : String)
deriving DecidableEq, Repr

/-- How one `work_round` ends: a normal return (the `work` loop goes on to
the next round — back to idle) or an exception propagating out of
`work_round` (nothing in `work` catches it: the worker process dies). -/
inductive RoundOutcome where
  | idle
  | crashed (text : String)
deriving DecidableEq, Repr

/-- The environment one round runs against: the transport outcome of the
claim, the message the isolated unit will send, how many polls time out
before it arrives, and the transport outcomes of the two mark calls
(`.error` = the HTTP call raises). -/
structure RoundEnv where
  claimResult : Except String (Option Proposal)
  unitMsg : ChanMsg
  pollDelays : Nat
  markProcessedResult : Except String StateEnum
  markFailedResult : Except String StateEnum

/-- The polling loop: `receiver.poll(timeout=job_check_interval)` until
the message arrives; each timed-out wait is one `poll` action. -/
def pollLoop (delays : Nat) (msg : ChanMsg) : List Action × ChanMsg :=
  match delays with
  | 0 => ([.poll], msg)
  | n + 1 =>
    let r := pollLoop n msg
    (.poll :: r.1, r.2)

/-- Method `Worker.work_round`: claim; if no work, sleep and return. Otherwise
spawn the isolated unit and poll. A failure message is re-raised; the
`except` block then calls `mark_failed` with the exception text. A
candidate message triggers `mark_processed`; if that call raises, the same
`except` block calls `mark_failed` with the transport exception text. An
exception from `mark_failed` itself is uncaught and propagates. -/
def work_round (env : RoundEnv) : List Action × RoundOutcome :=
  match env.claimResult with
  | .error e => ([.claimCall], .crashed e)
  | .ok none => ([.claimCall, .sleepIdle], .idle)
  | .ok (some proposal) =>
    match (pollLoop env.pollDelays env.unitMsg).2 with
    | .failure s =>
      match env.markFailedResult with
      | .ok _ =>
        ([.claimCall, .spawn] ++ (pollLoop env.pollDelays env.unitMsg).1 ++
          [.markFailedCall (proposal.id.getD 0) s], .idle)
      | .error e2 =>
        ([.claimCall, .spawn] ++ (pollLoop env.pollDelays env.unitMsg).1 ++
          [.markFailedCall (proposal.id.getD 0) s], .crashed e2)
    | .candidates c =>
      match env.markProcessedResult with
      | .ok _ =>
        ([.claimCall, .spawn] ++ (pollLoop env.pollDelays env.unitMsg).1 ++
          [.markProcessedCall (proposal.id.getD 0) c], .idle)
      | .error e =>
        match env.markFailedResult with
        | .ok _ =>
          ([.claimCall, .spawn] ++ (pollLoop env.pollDelays env.unitMsg).1 ++
            [.markProcessedCall (proposal.id.getD 0) c,
              .markFailedCall (proposal.id.getD 0) e], .idle)
        | .error e2 =>
          ([.claimCall, .spawn] ++ (pollLoop env.pollDelays env.unitMsg).1 ++
            [.markProcessedCall (proposal.id.getD 0) c,
              .markFailedCall (proposal.id.getD 0) e], .crashed e2)

/-- Is an action a `mark_failed` call? -/
def isMarkFailedCall : Action → Bool
  | .markFailedCall _ _ => true
  | _ => false

/-- The `mark_failed` calls a round makes, in order. -/
def markFailedCalls (tr : List Action) : List Action :=
  tr.filter isMarkFailedCall

/-! ## Concrete fixtures, used by the executable checks below -/

/-- A sequence finishing a proposal and then failing it. -/
def opsC1bad : List Op :=
  [.createOp ⟨0, none, 1⟩ 10, .claimOp 11, .markProcessedOp 1 ⟨[5]⟩ 12,
   .markFailedOp 1 "boom" 13]

/-- Create one proposal and claim it. -/
def opsC1good : List Op := [.createOp ⟨0, none, 1⟩ 0, .claimOp 1]

/-- The record reached by `opsC1good`. -/
def pC1 : Proposal := ⟨some 1, 0, none, 1, .CLAIMED, none, none, 0, 1⟩

/-- A store with exactly one `CREATED` proposal. -/
def dbC2 : DB := [(1, ⟨some 1, 0, none, 2, .CREATED, none, none, 0, 0⟩)]

/-- A store with one `CLAIMED` proposal expecting two candidates. -/
def dbC3 : DB := [(1, ⟨some 1, 0, none, 2, .CLAIMED, none, none, 0, 0⟩)]

/-- The record stored in `dbC3`. -/
def pC3 : Proposal := ⟨some 1, 0, none, 2, .CLAIMED, none, none, 0, 0⟩

/-- A two-row candidate set. -/
def cC3 : Candidates := ⟨[9, 9]⟩

/-- A sequence finishing a proposal and then failing it (scenario data). -/
def opsC4 : List Op :=
  [.createOp ⟨3, none, 1⟩ 0, .claimOp 1, .markProcessedOp 1 ⟨[7]⟩ 2,
   .markFailedOp 1 "singular matrix" 3]

/-- A store with one claimed, candidate-less proposal. -/
def dbC4 : DB := [(1, ⟨some 1, 3, none, 1, .CLAIMED, none, none, 0, 1⟩)]

/-- The record stored in `dbC4`. -/
def pC4 : Proposal := ⟨some 1, 3, none, 1, .CLAIMED, none, none, 0, 1⟩

/-- A store with one claimed proposal. -/
def dbC5 : DB := [(1, ⟨some 1, 2, none, 3, .CLAIMED, none, none, 0, 1⟩)]

/-- The record stored in `dbC5`. -/
def pC5 : Proposal := ⟨some 1, 2, none, 3, .CLAIMED, none, none, 0, 1⟩

/-- A store whose records are all `CLAIMED` or terminal. -/
def dbC6 : DB :=
  [(1, ⟨some 1, 0, none, 1, .CLAIMED, none, none, 0, 0⟩),
   (2, ⟨some 2, 0, none, 1, .FAILED, none, some "x", 0, 0⟩)]

/-- Create, claim and finish one proposal with a matching row count. -/
def opsC7 : List Op :=
  [.createOp ⟨2, none, 2⟩ 0, .claimOp 1, .markProcessedOp 1 ⟨[4, 4]⟩ 2]

/-- The record reached by `opsC7`. -/
def pC7 : Proposal :=
  ⟨some 1, 2, none, 2, .FINISHED, some ⟨[4, 4]⟩, none, 0, 2⟩

/-- A claimed proposal handed to the worker. -/
def pC8 : Proposal := ⟨some 1, 0, none, 1, .CLAIMED, none, none, 0, 1⟩

/-- Round environment: the unit fails and `mark_failed` succeeds. -/
def envC8w : RoundEnv :=
  ⟨.ok (some pC8), .failure "singular matrix", 2, .ok .FINISHED, .ok .FAILED⟩

/-- Round environment: the unit fails and `mark_failed` itself raises. -/
def envC8bad : RoundEnv :=
  ⟨.ok (some pC8), .failure "singular matrix", 0, .ok .FINISHED,
   .error "connection refused"⟩

/-- A generator pipeline whose every step succeeds. -/
def genEnvC9 : GenEnv Nat :=
  ⟨fun n => .ok n, fun s _ => .ok s, fun _ n => .ok ⟨List.range n⟩⟩

/-- A proposal with prior experiments and `n_candidates = 2`. -/
def pC9 : Proposal := ⟨some 1, 7, some 3, 2, .CLAIMED, none, none, 0, 1⟩

/-- A store with one already-`FAILED` proposal. -/
def dbC10 : DB :=
  [(1, ⟨some 1, 4, none, 1, .FAILED, none, some "earlier failure", 0, 3⟩)]

/-- The record stored in `dbC10`. -/
def pC10 : Proposal :=
  ⟨some 1, 4, none, 1, .FAILED, none, some "earlier failure", 0, 3⟩

/-- A one-row candidate set. -/
def cC10 : Candidates := ⟨[8]⟩

/-! ## Store lemmas -/

theorem dbUpdate_map_fst (db : DB) (i : Nat) (f : Proposal → Proposal) :
    (dbUpdate db i f).map Prod.fst = db.map Prod.fst := by
  unfold dbUpdate
  rw [List.map_map]
  apply List.map_congr_left
  intro e _
  by_cases h : e.1 = i <;> simp [h]

theorem dbUpdate_length (db : DB) (i : Nat) (f : Proposal → Proposal) :
    (dbUpdate db i f).length = db.length := by
  unfold dbUpdate; rw [List.length_map]

theorem dbGet_mem {db : DB} {i : Nat} {p : Proposal}
    (h : dbGet db i = some p) : (i, p) ∈ db := by
  unfold dbGet at h
  cases hf : db.find? (fun e => e.1 == i) with
  | none => rw [hf] at h; simp at h
  | some e =>
    rw [hf] at h
    have hmem := List.mem_of_find?_eq_some hf
    have hpred := List.find?_some hf
    obtain ⟨k, q⟩ := e
    simp only [beq_iff_eq] at hpred
    have hk : k = i := hpred
    have hq : q = p := by
      have h2 : some q = some p := h
      exact Option.some.inj h2
    rw [← hk, ← hq]
    exact hmem

theorem dbGet_dbUpdate_self (db : DB) (i : Nat) (f : Proposal → Proposal) :
    dbGet (dbUpdate db i f) i = (dbGet db i).map f := by
  induction db with
  | nil => rfl
  | cons e t ih =>
    by_cases h : e.1 = i
    · simp [dbGet, dbUpdate, List.find?_cons, h]
    · simp only [dbUpdate, List.map_cons, if_neg h] at *
      simp only [dbGet, List.find?_cons] at *
      have hb : (e.1 == i) = false := by simpa using h
      rw [hb]
      exact ih

theorem dbGet_append_fresh (db : DB) (k : Nat) (p : Proposal)
    (h : ∀ e ∈ db, e.1 ≠ k) : dbGet (db ++ [(k, p)]) k = some p := by
  unfold dbGet
  rw [List.find?_append]
  have hnone : db.find? (fun e => e.1 == k) = none := by
    rw [List.find?_eq_none]
    intro e he
    simpa using h e he
  rw [hnone]
  simp

theorem mem_dbUpdate {db : DB} {i : Nat} {f : Proposal → Proposal}
    {e' : Nat × Proposal} (h : e' ∈ dbUpdate db i f) :
    ∃ e ∈ db, e' = if e.1 = i then (e.1, f e.2) else e := by
  unfold dbUpdate at h
  rcases List.mem_map.mp h with ⟨e, he, rfl⟩
  exact ⟨e, he, rfl⟩

theorem isCreated_iff {p : Proposal} : isCreated p = true ↔ p.state = .CREATED := by
  cases h : p.state <;> simp [isCreated, h]

theorem dbInv_unique {db : DB} (hinv : DBInv db) {e e' : Nat × Proposal}
    (he : e ∈ db) (he' : e' ∈ db) (hk : e.1 = e'.1) : e = e' := by
  have hnd : (db.map Prod.fst).Nodup := by
    rw [hinv.1]
    exact List.nodup_range' 1 db.length 1 (by norm_num)
  exact List.inj_on_of_nodup_map hnd he he' hk

theorem dbInv_key_le {db : DB} (hinv : DBInv db) {e : Nat × Proposal}
    (he : e ∈ db) : 1 ≤ e.1 ∧ e.1 ≤ db.length := by
  have hm : e.1 ∈ db.map Prod.fst := List.mem_map_of_mem _ he
  rw [hinv.1, List.mem_range'] at hm
  obtain ⟨j, hj, hje⟩ := hm
  omega

theorem dbInv_empty : DBInv [] := by
  constructor
  · rfl
  · intro e he
    simp at he

/-- The handler `claim_proposal` is its read phase followed immediately by
its write phase: the decomposition used in the race analysis is faithful. -/
theorem claim_proposal_eq_select_commit (now : Nat) (db : DB) :
    claim_proposal now db =
      match claim_select db with
      | none => (.error ⟨404, "No proposals to claim"⟩, db)
      | some proposal => claim_commit now db proposal := by
  unfold claim_proposal claim_select claim_commit dbSearchCreated
  cases (db.filter (fun e => isCreated e.2)).map (fun e => e.2) <;> rfl

/-- The store after `claim_proposal`: unchanged when nothing is `CREATED`,
else the first `CREATED` record is rewritten. -/
theorem claim_proposal_db (now : Nat) (db : DB) :
    (claim_proposal now db).2 =
      match (dbSearchCreated db).head? with
      | none => db
      | some proposal =>
        dbUpdate db (proposal.id.getD 0)
          (fun q => { q with state := .CLAIMED, last_updated_at := now }) := by
  unfold claim_proposal
  cases hs : dbSearchCreated db with
  | nil => rfl
  | cons proposal rest =>
    simp only [List.head?_cons]
    cases dbGet (dbUpdate db (proposal.id.getD 0)
      (fun q => { q with state := .CLAIMED, last_updated_at := now }))
      (proposal.id.getD 0) <;> rfl

theorem dbInv_create (req : ProposalRequest) (now : Nat) (db : DB)
    (hinv : DBInv db) : DBInv (create_proposal req now db).2 := by
  have h2 : (create_proposal req now db).2 =
      dbUpdate (db ++ [(db.length + 1, newProposal req now)]) (db.length + 1)
        (fun q => { q with id := some (db.length + 1) }) := rfl
  rw [h2]
  constructor
  · rw [dbUpdate_map_fst, dbUpdate_length, List.map_append, hinv.1,
      List.length_append]
    have hc : List.range' 1 (db.length + 1) =
        List.range' 1 db.length ++ [1 + 1 * db.length] :=
      List.range'_concat 1 db.length
    simp only [one_mul] at hc
    simp only [List.map_cons, List.map_nil, List.length_cons, List.length_nil]
    rw [show db.length + (0 + 1) = db.length + 1 from rfl, hc]
    simp [Nat.add_comm]
  · intro e' he'
    obtain ⟨e, he, rfl⟩ := mem_dbUpdate he'
    rcases List.mem_append.mp he with hdb | hx
    · have hk := dbInv_key_le hinv hdb
      have hne : e.1 ≠ db.length + 1 := by omega
      rw [if_neg hne]
      exact hinv.2 e hdb
    · simp only [List.mem_singleton] at hx
      subst hx
      rw [if_pos rfl]
      unfold RecordOK newProposal
      refine ⟨rfl, fun _ => ⟨rfl, rfl⟩, ?_, ?_⟩
      · intro hfin
        exact nomatch hfin
      · intro hfail
        exact nomatch hfail

theorem dbInv_claim (now : Nat) (db : DB) (hinv : DBInv db) :
    DBInv (claim_proposal now db).2 := by
  rw [claim_proposal_db]
  cases hl : dbSearchCreated db with
  | nil => exact hinv
  | cons proposal rest =>
    simp only [List.head?_cons]
    have hmem : proposal ∈ dbSearchCreated db := by
      rw [hl]; exact List.mem_cons_self _ _
    unfold dbSearchCreated at hmem
    rcases List.mem_map.mp hmem with ⟨e, hef, he2⟩
    rcases List.mem_filter.mp hef with ⟨hedb, hecr⟩
    have hrec := hinv.2 e hedb
    have hid : proposal.id = some e.1 := by rw [← he2]; exact hrec.1
    have hpid : proposal.id.getD 0 = e.1 := by rw [hid]; rfl
    rw [hpid]
    constructor
    · rw [dbUpdate_map_fst, dbUpdate_length]; exact hinv.1
    · intro e' he'
      obtain ⟨eo, heo, rfl⟩ := mem_dbUpdate he'
      by_cases hk : eo.1 = e.1
      · rw [if_pos hk]
        have heq : eo = e := dbInv_unique hinv heo hedb hk
        subst heq
        have hcr : eo.2.state = .CREATED := isCreated_iff.mp hecr
        have hrec2 := hinv.2 eo heo
        have hcn := hrec2.2.1 (Or.inl hcr)
        unfold RecordOK
        refine ⟨hrec2.1, fun _ => ⟨hcn.1, hcn.2⟩, ?_, ?_⟩
        · intro hfin
          exact nomatch hfin
        · intro hfail
          exact nomatch hfail
      · rw [if_neg hk]
        exact hinv.2 eo heo

theorem get_proposal_from_db_ok {db : DB} {i : Nat} {p : Proposal}
    (hg : get_proposal_from_db db i = .ok p) : dbGet db i = some p := by
  unfold get_proposal_from_db at hg
  cases hd : dbGet db i with
  | none => rw [hd] at hg; cases hg
  | some q => rw [hd] at hg; cases hg; rfl

theorem dbInv_markProcessed (i : Nat) (c : Candidates) (now : Nat) (db : DB)
    (hinv : DBInv db) : DBInv (mark_processed i c now db).2 := by
  unfold mark_processed
  split
  · exact hinv
  · rename_i p hg
    split
    · exact hinv
    · rename_i hlen
      rw [not_not] at hlen
      have hget := get_proposal_from_db_ok hg
      have hmem := dbGet_mem hget
      have hrec := hinv.2 (i, p) hmem
      show DBInv (dbUpdate db i (fun _ =>
        { p with candidates := some c, last_updated_at := now,
                 state := .FINISHED }))
      constructor
      · rw [dbUpdate_map_fst, dbUpdate_length]; exact hinv.1
      · intro e' he'
        obtain ⟨eo, heo, rfl⟩ := mem_dbUpdate he'
        by_cases hk : eo.1 = i
        · rw [if_pos hk]
          unfold RecordOK
          refine ⟨?_, ?_, ?_, ?_⟩
          · rw [hk]; exact hrec.1
          · rintro (hst | hst) <;> exact nomatch hst
          · intro _; exact ⟨c, rfl, hlen⟩
          · intro hst; exact nomatch hst
        · rw [if_neg hk]
          exact hinv.2 eo heo

theorem dbInv_markFailed (i : Nat) (msg : String) (now : Nat) (db : DB)
    (hinv : DBInv db) : DBInv (mark_failed i msg now db).2 := by
  unfold mark_failed
  split
  · exact hinv
  · rename_i p hg
    have hget := get_proposal_from_db_ok hg
    have hmem := dbGet_mem hget
    have hrec := hinv.2 (i, p) hmem
    show DBInv (dbUpdate db i (fun _ =>
      { p with last_updated_at := now, state := .FAILED,
               error_message := some msg }))
    constructor
    · rw [dbUpdate_map_fst, dbUpdate_length]; exact hinv.1
    · intro e' he'
      obtain ⟨eo, heo, rfl⟩ := mem_dbUpdate he'
      by_cases hk : eo.1 = i
      · rw [if_pos hk]
        unfold RecordOK
        refine ⟨?_, ?_, ?_, ?_⟩
        · rw [hk]; exact hrec.1
        · rintro (hst | hst) <;> exact nomatch hst
        · intro hst; exact nomatch hst
        · intro _; exact ⟨msg, rfl⟩
      · rw [if_neg hk]
        exact hinv.2 eo heo

theorem dbInv_applyOp (db : DB) (op : Op) (h : DBInv db) :
    DBInv (applyOp db op) := by
  cases op with
  | createOp req now => exact dbInv_create req now db h
  | claimOp now => exact dbInv_claim now db h
  | markProcessedOp i c now => exact dbInv_markProcessed i c now db h
  | markFailedOp i msg now => exact dbInv_markFailed i msg now db h

theorem dbInv_foldl (ops : List Op) :
    ∀ db : DB, DBInv db → DBInv (ops.foldl applyOp db) := by
  induction ops with
  | nil => intro db h; exact h
  | cons op t ih => intro db h; exact ih _ (dbInv_applyOp db op h)

/-- Every store reachable by Proposal Service operations satisfies the
invariant `DBInv`. -/
theorem dbInv_runOps (ops : List Op) : DBInv (runOps ops) :=
  dbInv_foldl ops [] dbInv_empty

/-! ## Characterizations of the mark operations -/

theorem get_proposal_from_db_of_get (db : DB) (i : Nat) (p : Proposal)
    (h : dbGet db i = some p) : get_proposal_from_db db i = .ok p := by
  unfold get_proposal_from_db
  rw [h]

theorem mark_processed_eq_ok (db : DB) (i : Nat) (p : Proposal)
    (c : Candidates) (now : Nat) (h : get_proposal_from_db db i = .ok p)
    (hlen : c.rows.length = p.n_candidates) :
    mark_processed i c now db =
      (.ok .FINISHED, dbUpdate db i (fun _ =>
        { p with candidates := some c, last_updated_at := now,
                 state := .FINISHED })) := by
  unfold mark_processed
  split
  · rename_i e heq
    rw [h] at heq
    cases heq
  · rename_i q heq
    rw [h] at heq
    cases heq
    split
    · rename_i hne
      exact absurd hlen hne
    · rfl

theorem mark_processed_eq_mismatch (db : DB) (i : Nat) (p : Proposal)
    (c : Candidates) (now : Nat) (h : get_proposal_from_db db i = .ok p)
    (hlen : c.rows.length ≠ p.n_candidates) :
    mark_processed i c now db =
      (.error ⟨400, "Expected " ++ toString p.n_candidates ++
        " candidates, got " ++ toString c.rows.length⟩, db) := by
  unfold mark_processed
  split
  · rename_i e heq
    rw [h] at heq
    cases heq
  · rename_i q heq
    rw [h] at heq
    cases heq
    split
    · rfl
    · rename_i hq
      exact absurd hlen hq

theorem get_candidates_eq (db : DB) (i : Nat) (p : Proposal)
    (h : get_proposal_from_db db i = .ok p) :
    get_candidates i db =
      match p.candidates with
      | none => .error ⟨404, "Candidates not found"⟩
      | some c => .ok c := by
  unfold get_candidates
  rw [h]

theorem mark_failed_eq (db : DB) (i : Nat) (p : Proposal) (msg : String)
    (now : Nat) (h : get_proposal_from_db db i = .ok p) :
    mark_failed i msg now db =
      (.ok .FAILED, dbUpdate db i (fun _ =>
        { p with last_updated_at := now, state := .FAILED,
                 error_message := some msg })) := by
  unfold mark_failed
  split
  · rename_i e heq
    rw [h] at heq
    cases heq
  · rename_i q heq
    rw [h] at heq
    cases heq
    rfl

/-! ## Worker lemmas -/

theorem pollLoop_snd (n : Nat) (msg : ChanMsg) : (pollLoop n msg).2 = msg := by
  induction n with
  | zero => rfl
  | succ k ih => simpa [pollLoop] using ih

theorem markFailedCalls_pollLoop (n : Nat) (msg : ChanMsg) :
    markFailedCalls (pollLoop n msg).1 = [] := by
  induction n with
  | zero => rfl
  | succ k ih =>
    unfold markFailedCalls at *
    simp only [pollLoop, List.filter_cons]
    simpa [isMarkFailedCall] using ih

theorem work_round_eq_genFailure (env : RoundEnv) (p : Proposal) (s : String)
    (hc : env.claimResult = .ok (some p)) (hm : env.unitMsg = .failure s) :
    work_round env =
      ([.claimCall, .spawn] ++ (pollLoop env.pollDelays env.unitMsg).1 ++
        [.markFailedCall (p.id.getD 0) s],
       match env.markFailedResult with
       | .ok _ => .idle
       | .error e2 => .crashed e2) := by
  unfold work_round
  split
  · rename_i e heq
    rw [hc] at heq
    cases heq
  · rename_i heq
    rw [hc] at heq
    cases heq
  · rename_i proposal heq
    rw [hc] at heq
    cases heq
    rw [pollLoop_snd env.pollDelays env.unitMsg, hm]
    cases hmf : env.markFailedResult <;> rfl

theorem work_round_eq_transportFailure (env : RoundEnv) (p : Proposal)
    (c : Candidates) (e : String) (hc : env.claimResult = .ok (some p))
    (hm : env.unitMsg = .candidates c)
    (hmp : env.markProcessedResult = .error e) :
    work_round env =
      ([.claimCall, .spawn] ++ (pollLoop env.pollDelays env.unitMsg).1 ++
        [.markProcessedCall (p.id.getD 0) c, .markFailedCall (p.id.getD 0) e],
       match env.markFailedResult with
       | .ok _ => .idle
       | .error e2 => .crashed e2) := by
  unfold work_round
  split
  · rename_i e0 heq
    rw [hc] at heq
    cases heq
  · rename_i heq
    rw [hc] at heq
    cases heq
  · rename_i proposal heq
    rw [hc] at heq
    cases heq
    rw [pollLoop_snd env.pollDelays env.unitMsg, hm, hmp]
    cases hmf : env.markFailedResult <;> rfl

theorem work_round_eq_success (env : RoundEnv) (p : Proposal)
    (c : Candidates) (st : StateEnum) (hc : env.claimResult = .ok (some p))
    (hm : env.unitMsg = .candidates c)
    (hmp : env.markProcessedResult = .ok st) :
    work_round env =
      ([.claimCall, .spawn] ++ (pollLoop env.pollDelays env.unitMsg).1 ++
        [.markProcessedCall (p.id.getD 0) c], .idle) := by
  unfold work_round
  split
  · rename_i e0 heq
    rw [hc] at heq
    cases heq
  · rename_i heq
    rw [hc] at heq
    cases heq
  · rename_i proposal heq
    rw [hc] at heq
    cases heq
    rw [pollLoop_snd env.pollDelays env.unitMsg, hm, hmp]

theorem markFailedCalls_trace (polls : List Action)
    (hpolls : markFailedCalls polls = []) (rest : List Action) :
    markFailedCalls ([.claimCall, .spawn] ++ polls ++ rest) =
      markFailedCalls rest := by
  unfold markFailedCalls at *
  rw [List.filter_append, List.filter_append, hpolls]
  simp [isMarkFailedCall]

/-! ## Claims -/

/-- Claim C1, counterexample: the reachable operation sequence
create → claim → mark_processed → mark_failed leaves the proposal in state
`FAILED` with BOTH `candidates` and `error_message` present (`mark_failed`
never clears `candidates`), so "exactly one of the two fields is present"
is not preserved by every operation order. -/
theorem claim_C1_counterexample :
    (dbGet (runOps opsC1bad) 1).map
        (fun p => (p.state, p.candidates, p.error_message)) =
      some (.FAILED, some ⟨[5]⟩, some "boom") := by
  rfl

/-- Claim C1, amended: for every reachable proposal record, a `CREATED` or
`CLAIMED` record has neither `candidates` nor `error_message`; a
`FINISHED` record has `candidates` present; a `FAILED` record has
`error_message` present. (The exactly-one correspondence fails: a terminal
mark applied on top of the other terminal state leaves the stale optional
field in place alongside the new one.) -/
theorem claim_C1 (ops : List Op) (e : Nat × Proposal)
    (h : e ∈ runOps ops) :
    ((e.2.state = .CREATED ∨ e.2.state = .CLAIMED) →
      e.2.candidates = none ∧ e.2.error_message = none) ∧
    (e.2.state = .FINISHED → e.2.candidates.isSome = true) ∧
    (e.2.state = .FAILED → e.2.error_message.isSome = true) := by
  have hrec := (dbInv_runOps ops).2 e h
  refine ⟨hrec.2.1, ?_, ?_⟩
  · intro hf
    obtain ⟨c, hcand, _⟩ := hrec.2.2.1 hf
    rw [hcand]
    rfl
  · intro hf
    obtain ⟨m, hm⟩ := hrec.2.2.2 hf
    rw [hm]
    rfl

/-- Claim C1, witness: the amended invariant evaluated on the store
reached by `opsC1good` at its single (claimed) record. -/
theorem claim_C1_witness :
    ((pC1.state = .CREATED ∨ pC1.state = .CLAIMED) →
      pC1.candidates = none ∧ pC1.error_message = none) ∧
    (pC1.state = .FINISHED → pC1.candidates.isSome = true) ∧
    (pC1.state = .FAILED → pC1.error_message.isSome = true) :=
  claim_C1 opsC1good (1, pC1) (by decide)

/-- Claim C2: against a store holding exactly one `CREATED` proposal, two
concurrent `claim_proposal` requests interleaved as read₁ read₂ write₁
write₂ (each request runs on its own unlocked TinyDB handle, so this
schedule is possible) BOTH return proposal 1 in state `CLAIMED` — the
read-select-then-write sequence is not atomic, violating the required
exactly-once claim semantics. -/
theorem claim_C2_race :
    (claim_two_interleaved 5 6 dbC2).1 =
      (.ok ⟨some 1, 0, none, 2, .CLAIMED, none, none, 0, 5⟩,
       .ok ⟨some 1, 0, none, 2, .CLAIMED, none, none, 0, 6⟩) := by
  rfl

/-- Claim C3: for every existing proposal, `mark_processed` with a row
count differing from `n_candidates` returns the 400 count-mismatch error
and leaves the whole store (in particular the proposal's record and state)
unchanged; with a matching row count it returns `FINISHED` and rewrites
the record with the candidates stored, state `FINISHED` and a refreshed
`last_updated_at`. -/
theorem claim_C3 (db : DB) (i : Nat) (p : Proposal) (c : Candidates)
    (now : Nat) (h : dbGet db i = some p) :
    (c.rows.length ≠ p.n_candidates →
      mark_processed i c now db =
        (.error ⟨400, "Expected " ++ toString p.n_candidates ++
          " candidates, got " ++ toString c.rows.length⟩, db)) ∧
    (c.rows.length = p.n_candidates →
      (mark_processed i c now db).1 = .ok .FINISHED ∧
      dbGet (mark_processed i c now db).2 i =
        some { p with candidates := some c, last_updated_at := now,
                      state := .FINISHED }) := by
  have hgp := get_proposal_from_db_of_get db i p h
  constructor
  · intro hne
    exact mark_processed_eq_mismatch db i p c now hgp hne
  · intro hlen
    have he := mark_processed_eq_ok db i p c now hgp hlen
    constructor
    · rw [he]
    · rw [he]
      show dbGet (dbUpdate db i (fun _ =>
        { p with candidates := some c, last_updated_at := now,
                 state := .FINISHED })) i = _
      rw [dbGet_dbUpdate_self, h]
      rfl

/-- Claim C3, witness: both branches evaluated on a concrete store with
`n_candidates = 2` and the two-row set `cC3`. -/
theorem claim_C3_witness :
    (cC3.rows.length ≠ pC3.n_candidates →
      mark_processed 1 cC3 7 dbC3 =
        (.error ⟨400, "Expected " ++ toString pC3.n_candidates ++
          " candidates, got " ++ toString cC3.rows.length⟩, dbC3)) ∧
    (cC3.rows.length = pC3.n_candidates →
      (mark_processed 1 cC3 7 dbC3).1 = .ok .FINISHED ∧
      dbGet (mark_processed 1 cC3 7 dbC3).2 1 =
        some { pC3 with candidates := some cC3, last_updated_at := 7,
                        state := .FINISHED }) :=
  claim_C3 dbC3 1 pC3 cC3 7 (by decide)

/-- Claim C4, counterexample: after finish-then-fail, the proposal's state
is `FAILED` — not `FINISHED` — yet `get_candidates` succeeds with the
stored rows instead of returning 404, refuting "fails with NotFound
exactly when not yet FINISHED" and "after marked failed, fetching
candidates returns NotFound" in general. -/
theorem claim_C4_counterexample :
    get_state 1 (runOps opsC4) = .ok .FAILED ∧
    get_candidates 1 (runOps opsC4) = .ok ⟨[7]⟩ := by
  exact ⟨rfl, rfl⟩

/-- Claim C4, amended: for every existing proposal, `get_candidates`
returns the 404 "Candidates not found" error exactly when the record
lacks stored candidates, and returns the stored candidates otherwise; in
particular, a proposal without candidates that is marked failed still
yields 404 afterwards. (A proposal marked failed AFTER being finished
keeps its candidates, and `get_candidates` then succeeds despite the
`FAILED` state.) -/
theorem claim_C4 (db : DB) (i : Nat) (p : Proposal)
    (h : dbGet db i = some p) :
    (p.candidates = none →
      get_candidates i db = .error ⟨404, "Candidates not found"⟩) ∧
    (∀ c, p.candidates = some c → get_candidates i db = .ok c) ∧
    (∀ msg now, p.candidates = none →
      get_candidates i (mark_failed i msg now db).2 =
        .error ⟨404, "Candidates not found"⟩) := by
  have hgp := get_proposal_from_db_of_get db i p h
  refine ⟨?_, ?_, ?_⟩
  · intro hc
    rw [get_candidates_eq db i p hgp, hc]
  · intro c hc
    rw [get_candidates_eq db i p hgp, hc]
  · intro msg now hc
    have he := mark_failed_eq db i p msg now hgp
    have h1 : dbGet (mark_failed i msg now db).2 i =
        some { p with last_updated_at := now, state := .FAILED,
                      error_message := some msg } := by
      rw [he]
      show dbGet (dbUpdate db i (fun _ =>
        { p with last_updated_at := now, state := .FAILED,
                 error_message := some msg })) i = _
      rw [dbGet_dbUpdate_self, h]
      rfl
    have hgp2 := get_proposal_from_db_of_get _ i _ h1
    rw [get_candidates_eq _ i _ hgp2]
    have hc2 : ({ p with
        last_updated_at := now, state := .FAILED,
        error_message := some msg } : Proposal).candidates = none := hc
    rw [hc2]

/-- Claim C4, witness: the amended statement evaluated on a store with one
candidate-less claimed proposal. -/
theorem claim_C4_witness :
    (pC4.candidates = none →
      get_candidates 1 dbC4 = .error ⟨404, "Candidates not found"⟩) ∧
    (∀ c, pC4.candidates = some c → get_candidates 1 dbC4 = .ok c) ∧
    (∀ msg now, pC4.candidates = none →
      get_candidates 1 (mark_failed 1 msg now dbC4).2 =
        .error ⟨404, "Candidates not found"⟩) :=
  claim_C4 dbC4 1 pC4 (by decide)

/-- Claim C5: for every existing proposal, in whatever state,
`mark_failed` returns `FAILED` and rewrites the record with state
`FAILED`, the given message stored verbatim as `error_message`, and a
refreshed `last_updated_at`; a repeated call is accepted and overwrites
the state, message and timestamp again. -/
theorem claim_C5 (db : DB) (i : Nat) (p : Proposal) (msg : String)
    (now : Nat) (h : dbGet db i = some p) :
    (mark_failed i msg now db).1 = .ok .FAILED ∧
    dbGet (mark_failed i msg now db).2 i =
      some { p with last_updated_at := now, state := .FAILED,
                    error_message := some msg } ∧
    (∀ msg2 now2,
      (mark_failed i msg2 now2 (mark_failed i msg now db).2).1 =
        .ok .FAILED ∧
      dbGet (mark_failed i msg2 now2 (mark_failed i msg now db).2).2 i =
        some { p with last_updated_at := now2, state := .FAILED,
                      error_message := some msg2 }) := by
  have hgp := get_proposal_from_db_of_get db i p h
  have he := mark_failed_eq db i p msg now hgp
  have h1 : dbGet (mark_failed i msg now db).2 i =
      some { p with last_updated_at := now, state := .FAILED,
                    error_message := some msg } := by
    rw [he]
    show dbGet (dbUpdate db i (fun _ =>
      { p with last_updated_at := now, state := .FAILED,
               error_message := some msg })) i = _
    rw [dbGet_dbUpdate_self, h]
    rfl
  refine ⟨by rw [he], h1, ?_⟩
  intro msg2 now2
  have hgp2 := get_proposal_from_db_of_get _ i _ h1
  have he2 := mark_failed_eq (mark_failed i msg now db).2 i _ msg2 now2 hgp2
  constructor
  · rw [he2]
  · rw [he2]
    show dbGet (dbUpdate (mark_failed i msg now db).2 i (fun _ =>
      { ({ p with
           last_updated_at := now, state := .FAILED,
           error_message := some msg } : Proposal) with
        last_updated_at := now2, state := .FAILED,
        error_message := some msg2 })) i = _
    rw [dbGet_dbUpdate_self, h1]
    rfl

/-- Claim C5, witness: both calls evaluated on a store with one claimed
proposal. -/
theorem claim_C5_witness :
    (mark_failed 1 "first" 4 dbC5).1 = .ok .FAILED ∧
    dbGet (mark_failed 1 "first" 4 dbC5).2 1 =
      some { pC5 with last_updated_at := 4, state := .FAILED,
                      error_message := some "first" } ∧
    (∀ msg2 now2,
      (mark_failed 1 msg2 now2 (mark_failed 1 "first" 4 dbC5).2).1 =
        .ok .FAILED ∧
      dbGet (mark_failed 1 msg2 now2 (mark_failed 1 "first" 4 dbC5).2).2 1 =
        some { pC5 with last_updated_at := now2, state := .FAILED,
                        error_message := some msg2 }) :=
  claim_C5 dbC5 1 pC5 "first" 4 (by decide)

/-- Claim C6: when the store holds no `CREATED` record, `claim_proposal`
answers with the 404 "No proposals to claim" response, the worker client
turns exactly that response into the distinct no-work result `none`
(never a raised error), and the store is unchanged. -/
theorem claim_C6 (db : DB) (now : Nat)
    (h : ∀ e ∈ db, isCreated e.2 = false) :
    claim_proposal now db = (.error ⟨404, "No proposals to claim"⟩, db) ∧
    client_claim_proposal now db = (.ok none, db) := by
  have hs : dbSearchCreated db = [] := by
    unfold dbSearchCreated
    have hf : db.filter (fun e => isCreated e.2) = [] := by
      rw [List.filter_eq_nil_iff]
      intro a ha
      simp [h a ha]
    rw [hf]
    rfl
  have hc : claim_proposal now db =
      (.error ⟨404, "No proposals to claim"⟩, db) := by
    unfold claim_proposal
    rw [hs]
  refine ⟨hc, ?_⟩
  unfold client_claim_proposal
  rw [hc]
  rfl

/-- Claim C6, witness: the no-work behaviour on a store holding one
claimed and one failed proposal. -/
theorem claim_C6_witness :
    claim_proposal 9 dbC6 = (.error ⟨404, "No proposals to claim"⟩, dbC6) ∧
    client_claim_proposal 9 dbC6 = (.ok none, dbC6) :=
  claim_C6 dbC6 9 (by decide)

/-- Claim C7: every reachable proposal record in state `FINISHED` carries
stored candidates whose row count equals its `n_candidates`, after any
sequence of Proposal Service operations. -/
theorem claim_C7 (ops : List Op) (e : Nat × Proposal)
    (h : e ∈ runOps ops) (hf : e.2.state = .FINISHED) :
    ∃ c, e.2.candidates = some c ∧ c.rows.length = e.2.n_candidates :=
  ((dbInv_runOps ops).2 e h).2.2.1 hf

/-- Claim C7, witness: the invariant evaluated on the store reached by
create, claim, mark_processed with two rows on `n_candidates = 2`. -/
theorem claim_C7_witness :
    ∃ c, pC7.candidates = some c ∧ c.rows.length = pC7.n_candidates :=
  claim_C7 opsC7 (1, pC7) (by decide) (by decide)

/-- Claim C8, counterexample: a round where the unit sends a failure and
the `mark_failed` HTTP call itself raises — the worker does make exactly
one `mark_failed` call with the failure's text, but the exception then
propagates out of `work_round` (nothing in `work` catches it), so the
worker does NOT return to its idle loop as the claim states. -/
theorem claim_C8_counterexample :
    markFailedCalls (work_round envC8bad).1 =
      [.markFailedCall 1 "singular matrix"] ∧
    (work_round envC8bad).2 = .crashed "connection refused" := by
  exact ⟨rfl, rfl⟩

/-- Claim C8, amended: in every round with a successful claim, a failure
message from the unit, or a transport failure while marking processed,
leads to exactly one `mark_failed` call carrying the failure's textual
description; the worker then returns to its idle loop provided that
`mark_failed` call returns normally, and the exception propagates
(terminating the worker loop) when `mark_failed` itself raises. On
success with a successful `mark_processed`, no `mark_failed` call is made
and the round returns to idle. -/
theorem claim_C8 (env : RoundEnv) (p : Proposal)
    (hc : env.claimResult = .ok (some p)) :
    (∀ s, env.unitMsg = .failure s →
      markFailedCalls (work_round env).1 =
        [.markFailedCall (p.id.getD 0) s] ∧
      (∀ st, env.markFailedResult = .ok st → (work_round env).2 = .idle) ∧
      (∀ e2, env.markFailedResult = .error e2 →
        (work_round env).2 = .crashed e2)) ∧
    (∀ c e, env.unitMsg = .candidates c →
      env.markProcessedResult = .error e →
      markFailedCalls (work_round env).1 =
        [.markFailedCall (p.id.getD 0) e] ∧
      (∀ st, env.markFailedResult = .ok st → (work_round env).2 = .idle) ∧
      (∀ e2, env.markFailedResult = .error e2 →
        (work_round env).2 = .crashed e2)) ∧
    (∀ c st, env.unitMsg = .candidates c →
      env.markProcessedResult = .ok st →
      markFailedCalls (work_round env).1 = [] ∧
      (work_round env).2 = .idle) := by
  refine ⟨?_, ?_, ?_⟩
  · intro s hm
    have he := work_round_eq_genFailure env p s hc hm
    refine ⟨?_, ?_, ?_⟩
    · rw [he]
      exact markFailedCalls_trace _
        (markFailedCalls_pollLoop env.pollDelays env.unitMsg) _
    · intro st hst
      rw [he]
      show (match env.markFailedResult with
        | .ok _ => RoundOutcome.idle
        | .error e2 => .crashed e2) = _
      rw [hst]
    · intro e2 hst
      rw [he]
      show (match env.markFailedResult with
        | .ok _ => RoundOutcome.idle
        | .error e2 => .crashed e2) = _
      rw [hst]
  · intro c e hm hmp
    have he := work_round_eq_transportFailure env p c e hc hm hmp
    refine ⟨?_, ?_, ?_⟩
    · rw [he]
      exact markFailedCalls_trace _
        (markFailedCalls_pollLoop env.pollDelays env.unitMsg) _
    · intro st hst
      rw [he]
      show (match env.markFailedResult with
        | .ok _ => RoundOutcome.idle
        | .error e2 => .crashed e2) = _
      rw [hst]
    · intro e2 hst
      rw [he]
      show (match env.markFailedResult with
        | .ok _ => RoundOutcome.idle
        | .error e2 => .crashed e2) = _
      rw [hst]
  · intro c st hm hmp
    have he := work_round_eq_success env p c st hc hm hmp
    constructor
    · rw [he]
      exact markFailedCalls_trace _
        (markFailedCalls_pollLoop env.pollDelays env.unitMsg) _
    · rw [he]

/-- Claim C8, witness: the amended statement evaluated on a concrete
round environment where the unit fails and `mark_failed` succeeds. -/
theorem claim_C8_witness :
    (∀ s, envC8w.unitMsg = .failure s →
      markFailedCalls (work_round envC8w).1 =
        [.markFailedCall (pC8.id.getD 0) s] ∧
      (∀ st, envC8w.markFailedResult = .ok st →
        (work_round envC8w).2 = .idle) ∧
      (∀ e2, envC8w.markFailedResult = .error e2 →
        (work_round envC8w).2 = .crashed e2)) ∧
    (∀ c e, envC8w.unitMsg = .candidates c →
      envC8w.markProcessedResult = .error e →
      markFailedCalls (work_round envC8w).1 =
        [.markFailedCall (pC8.id.getD 0) e] ∧
      (∀ st, envC8w.markFailedResult = .ok st →
        (work_round envC8w).2 = .idle) ∧
      (∀ e2, envC8w.markFailedResult = .error e2 →
        (work_round envC8w).2 = .crashed e2)) ∧
    (∀ c st, envC8w.unitMsg = .candidates c →
      envC8w.markProcessedResult = .ok st →
      markFailedCalls (work_round envC8w).1 = [] ∧
      (work_round envC8w).2 = .idle) :=
  claim_C8 envC8w pC8 rfl

/-- Claim C9: for every proposal and every behaviour of the generation
pipeline, the isolated unit sends exactly one message on its channel:
the computed candidate set when the pipeline succeeds, a failure value
carrying the failure text when any step raises — with no retry. -/
theorem claim_C9 {Strategy : Type} (env : GenEnv Strategy) (p : Proposal) :
    (process_proposal env p).length = 1 ∧
    (∀ c, generate env p = .ok c →
      process_proposal env p = [.candidates c]) ∧
    (∀ s, generate env p = .error s →
      process_proposal env p = [.failure s]) := by
  refine ⟨rfl, ?_, ?_⟩
  · intro c hg
    unfold process_proposal
    rw [hg]
  · intro s hg
    unfold process_proposal
    rw [hg]

/-- Claim C9, witness: the isolated unit evaluated on a concrete
always-succeeding pipeline. -/
theorem claim_C9_witness :
    process_proposal genEnvC9 pC9 = [.candidates ⟨[0, 1]⟩] :=
  (claim_C9 genEnvC9 pC9).2.1 ⟨[0, 1]⟩ rfl

/-- Claim C10: `mark_processed` never inspects the proposal's state: for
every existing proposal in any state, a call with a matching row count
returns `FINISHED` and rewrites the record to state `FINISHED` with the
candidates stored. -/
theorem claim_C10 (db : DB) (i : Nat) (p : Proposal) (c : Candidates)
    (now : Nat) (h : dbGet db i = some p)
    (hlen : c.rows.length = p.n_candidates) :
    (mark_processed i c now db).1 = .ok .FINISHED ∧
    dbGet (mark_processed i c now db).2 i =
      some { p with candidates := some c, last_updated_at := now,
                    state := .FINISHED } := by
  have hgp := get_proposal_from_db_of_get db i p h
  have he := mark_processed_eq_ok db i p c now hgp hlen
  constructor
  · rw [he]
  · rw [he]
    show dbGet (dbUpdate db i (fun _ =>
      { p with candidates := some c, last_updated_at := now,
               state := .FINISHED })) i = _
    rw [dbGet_dbUpdate_self, h]
    rfl

/-- Claim C10, witness: `mark_processed` on an already-`FAILED` (never
claimed again) proposal with a matching row count still finishes it. -/
theorem claim_C10_witness :
    (mark_processed 1 cC10 9 dbC10).1 = .ok .FINISHED ∧
    dbGet (mark_processed 1 cC10 9 dbC10).2 1 =
      some { pC10 with candidates := some cC10, last_updated_at := 9,
                       state := .FINISHED } :=
  claim_C10 dbC10 1 pC10 cC10 9 (by decide) (by decide)

end BofireCandidates
